import Mathlib

/-!
Shallow embedding of the record base abstraction of `src/core/models.py`
(soft deletion, audit logging, external-id generation shared by the four
concrete record types Temple, TempleGalleryImage, ArchitectureFeature,
Product).

Modelling conventions:
* Machine time (`timezone.now()`) is a natural number held in the store
  (`Store.now`); Django's `auto_now` refresh of `updated_at` happens on
  persist, `auto_now_add` sets `created_at` on insert.
* The persistent store is a list of records, each tagged with the concrete
  class it belongs to (`ctype`, the content-type id): a Django queryset
  `SomeModel.objects` sees exactly the records whose `ctype` matches.
* Django's global PRNG (`random.choice`) is an explicit stream
  `rand : Nat → Fin 36` of indices into the 36-character alphabet
  `string.ascii_lowercase + string.digits`; each recursive retry of
  `generate_unique_ext` consumes the next `length` draws.
* The unbounded recursion of `generate_unique_ext` is given explicit fuel;
  running out of fuel models the recursion never returning
  (`Err.nonTermination`).
* Python exceptions are modelled by `Except`: the `ValueError` raised by
  `delete` without a user is `Err.invalidOperation`, the `AttributeError`
  raised by `user.pk` when `user is None` is `Err.noneDereference`.  An
  error carries the store and record state at the raise point, so partial
  mutation before an exception is observable.
* `LogEntry.change_message` is built in the source as the `str` of a dict
  with keys `message`, `is_admin`, `code`; the embedding keeps the three
  components as separate fields of the entry.
-/

/-- An acting user; `pk` is the primary key read by `user.pk`. -/
structure User where
  pk : Nat
  deriving DecidableEq, Repr

/-- Django's `LogEntry` action flags `ADDITION`, `CHANGE`, `DELETION`. -/
inductive ActionFlag where
  | addition
  | change
  | deletion
  deriving DecidableEq, Repr

/-- One row of Django's `LogEntry` audit table, as written by
`LogEntry.objects.log_action` in `BaseModel.log_action`. -/
structure LogEntry where
  user_id : Nat
  content_type_id : Nat
  object_id : Nat
  object_repr : String
  action_flag : ActionFlag
  message : String
  is_admin : Bool
  code : Option Nat
  action_time : Nat
  deriving DecidableEq, Repr

/-- A record of any concrete type inheriting `BaseModel`.  `pk` is the
internal identity (`id`), `ctype` identifies the concrete class
(content type), `reprStr` is the class's `str(self)`.  `ext_id = ""`
models an unset `ext_id` (`if not self.ext_id` tests Python falsiness). -/
structure Record where
  pk : Nat
  ctype : Nat
  uid : Nat
  ext_id : String
  created_at : Nat
  updated_at : Nat
  deleted_at : Option Nat
  created_user : Option User
  updated_user : Option User
  reprStr : String
  deriving DecidableEq, Repr

/-- The persistent store plus the audit-log sink and the current time. -/
structure Store where
  records : List Record
  logs : List LogEntry
  now : Nat
  deriving DecidableEq, Repr

/-- Errors propagating out of the operations (see module comment). -/
inductive Err where
  | invalidOperation
  | noneDereference
  | nonTermination
  deriving DecidableEq, Repr

/-- Result of a mutating operation: on success the new store and the
mutated record (`self`); on error the raise point's store and record. -/
abbrev DbResult := Except (Err × Store × Record) (Store × Record)

/-- The alphabet `string.ascii_lowercase + string.digits`. -/
def alphaChars : List Char :=
  "abcdefghijklmnopqrstuvwxyz0123456789".toList

/-- Model of `generate_ext(length=10)`: join of `length` draws of
`random.choice(string.ascii_lowercase + string.digits)`. -/
def generate_ext (rand : Nat → Fin 36) (length : Nat := 10) : String :=
  String.mk ((List.range length).map fun i => alphaChars.getD (rand i).val 'a')

/-- Insertion maintaining `le`, used to model a queryset's `order_by`. -/
def insertByLe {α : Type} (le : α → α → Bool) (a : α) : List α → List α
  | [] => [a]
  | b :: bs => if le a b then a :: b :: bs else b :: insertByLe le a bs

/-- Insertion sort by the boolean comparison `le`, used to model a
queryset's `order_by`. -/
def sortByLe {α : Type} (le : α → α → Bool) : List α → List α
  | [] => []
  | a :: as => insertByLe le a (sortByLe le as)

/-- Model of `SoftDeleteManager.get_queryset` for the concrete class `ct`:
`super().get_queryset().filter(deleted_at__isnull=True).order_by('id')`.
The base queryset of a class manager is the class's own table. -/
def get_queryset (s : Store) (ct : Nat) : List Record :=
  sortByLe (fun a b => a.pk ≤ b.pk)
    (((s.records.filter fun r => r.ctype == ct).filter
      fun r => r.deleted_at == none))

/-- Model of `BaseModel.all_objects = models.Manager()` for concrete class `ct`:
the unrestricted table, with the concrete classes' `Meta.ordering = ['id']`. -/
def all_objects (s : Store) (ct : Nat) : List Record :=
  sortByLe (fun a b => a.pk ≤ b.pk) (s.records.filter fun r => r.ctype == ct)

/-- Model of `instance.__class__.objects.filter(ext_id=ext_id).exists()`: the
default manager is `SoftDeleteManager`, so the check ranges over the
non-soft-deleted records of `instance`'s own class only. -/
def ext_id_taken (s : Store) (ct : Nat) (e : String) : Bool :=
  (get_queryset s ct).any fun r => r.ext_id == e

/-- Model of `generate_unique_ext(instance, length=10)`:
draw a candidate; `while not <exists>: return ext_id` returns it when no
record of the class's default queryset already has it, otherwise fall
through to `return generate_unique_ext(instance, length)` with fresh
randomness.  `fuel` bounds the unbounded recursion of the source. -/
def generate_unique_ext (s : Store) (ct : Nat) (rand : Nat → Fin 36)
    (length : Nat) : Nat → Option String
  | 0 => none
  | fuel + 1 =>
    let ext_id := generate_ext rand length
    if ext_id_taken s ct ext_id = false then some ext_id
    else generate_unique_ext s ct (fun i => rand (i + length)) length fuel

/-- Model of `super().save(*args, **kwargs)`: update the row with `self.pk` if it
exists, else insert; `auto_now` refreshes `updated_at`, `auto_now_add`
sets `created_at` on insert only. -/
def persist (s : Store) (r : Record) : Store × Record :=
  if s.records.any fun x => x.pk == r.pk then
    let r' := { r with updated_at := s.now }
    ({ s with records := s.records.map fun x => if x.pk == r.pk then r' else x }, r')
  else
    let r' := { r with updated_at := s.now, created_at := s.now }
    ({ s with records := s.records ++ [r'] }, r')

/-- Model of `BaseModel.save`: `if not self.ext_id: self.ext_id =
generate_unique_ext(self)` then `super().save()`. -/
def save (rand : Nat → Fin 36) (fuel : Nat) (s : Store) (r : Record) :
    DbResult :=
  if r.ext_id = "" then
    match generate_unique_ext s r.ctype rand 10 fuel with
    | none => .error (.nonTermination, s, r)
    | some e => .ok (persist s { r with ext_id := e })
  else .ok (persist s r)

/-- Model of `BaseModel.log_action(user, action_flag, message=None, is_admin=False,
code=None)`: reads `user.pk` (raising on `None`), then appends a
`LogEntry` row for this record's content type and `pk`. -/
def log_action (s : Store) (r : Record) (user : Option User)
    (action_flag : ActionFlag) (message : Option String) (is_admin : Bool)
    (code : Option Nat) : Except Err Store :=
  match user with
  | none => .error .noneDereference
  | some u =>
    .ok { s with logs := s.logs ++
      [{ user_id := u.pk
         content_type_id := r.ctype
         object_id := r.pk
         object_repr := r.reprStr
         action_flag := action_flag
         message := message.getD ""
         is_admin := is_admin
         code := code
         action_time := s.now }] }

/-- Model of `BaseModel.delete`: pop `user`, raise `ValueError` if absent, else set
`deleted_at = timezone.now()`, set `updated_user = user`, log a
`DELETION` entry "Object soft deleted", then `self.save()`. -/
def delete (rand : Nat → Fin 36) (fuel : Nat) (s : Store) (r : Record)
    (user : Option User) : DbResult :=
  match user with
  | none => .error (.invalidOperation, s, r)
  | some u =>
    let r1 := { r with deleted_at := some s.now, updated_user := some u }
    match log_action s r1 r1.updated_user .deletion
        (some "Object soft deleted") false none with
    | .error e => .error (e, s, r1)
    | .ok s1 => save rand fuel s1 r1

/-- Model of `BaseModel.restore`: `self.deleted_at = None; self.save();
self.log_action(user=self.updated_user, action_flag=CHANGE,
message="Object restored", is_admin=False)`. -/
def restore (rand : Nat → Fin 36) (fuel : Nat) (s : Store) (r : Record) :
    DbResult :=
  let r1 := { r with deleted_at := none }
  match save rand fuel s r1 with
  | .error e => .error e
  | .ok (s1, r2) =>
    match log_action s1 r2 r2.updated_user .change
        (some "Object restored") false none with
    | .error e => .error (e, s1, r2)
    | .ok s2 => .ok (s2, r2)

/-- Model of `BaseModel.is_deleted`: `return self.deleted_at is not None`.  A pure
function of the record alone. -/
def is_deleted (r : Record) : Bool :=
  r.deleted_at.isSome

/-- Model of `BaseModel.all_logs`: `LogEntry.objects.filter(content_type=<this
class>, object_id=self.pk).order_by('-action_time')`.  A pure function of
the store and record: no mutation. -/
def all_logs (s : Store) (r : Record) : List LogEntry :=
  sortByLe (fun a b => b.action_time ≤ a.action_time)
    (s.logs.filter fun e => e.content_type_id == r.ctype && e.object_id == r.pk)

/-! Helper lemmas about the queryset sort. -/

theorem mem_insertByLe {α : Type} (le : α → α → Bool) (a x : α) (l : List α) :
    x ∈ insertByLe le a l ↔ x = a ∨ x ∈ l := by
  induction l with
  | nil => simp [insertByLe]
  | cons b bs ih =>
    by_cases h : le a b
    · simp [insertByLe, h]
    · simp only [insertByLe, h, if_neg, Bool.not_eq_true, List.mem_cons, ih]
      tauto

theorem mem_sortByLe {α : Type} (le : α → α → Bool) (x : α) (l : List α) :
    x ∈ sortByLe le l ↔ x ∈ l := by
  induction l with
  | nil => simp [sortByLe]
  | cons b bs ih =>
    simp [sortByLe, mem_insertByLe, ih]

theorem length_insertByLe {α : Type} (le : α → α → Bool) (a : α) (l : List α) :
    (insertByLe le a l).length = l.length + 1 := by
  induction l with
  | nil => simp [insertByLe]
  | cons b bs ih =>
    by_cases h : le a b <;> simp [insertByLe, h, ih]

theorem length_sortByLe {α : Type} (le : α → α → Bool) (l : List α) :
    (sortByLe le l).length = l.length := by
  induction l with
  | nil => rfl
  | cons b bs ih => simp [sortByLe, length_insertByLe, ih]

theorem pairwise_insertByLe {α : Type} (le : α → α → Bool)
    (htot : ∀ a b, le a b = true ∨ le b a = true)
    (htrans : ∀ a b c, le a b = true → le b c = true → le a c = true)
    (a : α) (l : List α) (hl : l.Pairwise fun x y => le x y = true) :
    (insertByLe le a l).Pairwise fun x y => le x y = true := by
  induction l with
  | nil => simp [insertByLe]
  | cons b bs ih =>
    rcases List.pairwise_cons.mp hl with ⟨hb, hbs⟩
    by_cases h : le a b
    · simp only [insertByLe, h, if_pos]
      refine List.pairwise_cons.mpr ⟨?_, hl⟩
      intro y hy
      rcases List.mem_cons.mp hy with rfl | hy
      · exact h
      · exact htrans a b y h (hb y hy)
    · simp only [insertByLe, h, if_neg, Bool.not_eq_true]
      refine List.pairwise_cons.mpr ⟨?_, ih hbs⟩
      intro y hy
      rcases (mem_insertByLe le a y bs).mp hy with hya | hy
      · rw [hya]
        rcases htot a b with hab | hba
        · exact absurd hab h
        · exact hba
      · exact hb y hy

theorem pairwise_sortByLe {α : Type} (le : α → α → Bool)
    (htot : ∀ a b, le a b = true ∨ le b a = true)
    (htrans : ∀ a b c, le a b = true → le b c = true → le a c = true)
    (l : List α) :
    (sortByLe le l).Pairwise fun x y => le x y = true := by
  induction l with
  | nil => exact List.Pairwise.nil
  | cons b bs ih => exact pairwise_insertByLe le htot htrans b _ ih

/-! Helper lemmas about the generated candidate strings. -/

theorem length_generate_ext (rand : Nat → Fin 36) (length : Nat) :
    (generate_ext rand length).length = length := by
  simp [generate_ext, String.length]

theorem mem_alphaChars_generate_ext (rand : Nat → Fin 36) (length : Nat) :
    ∀ c ∈ (generate_ext rand length).toList, c ∈ alphaChars := by
  intro c hc
  simp only [generate_ext, String.toList, List.mem_map] at hc
  obtain ⟨i, _, rfl⟩ := hc
  have hlt : (rand i).val < alphaChars.length := by
    have h36 : alphaChars.length = 36 := rfl
    simp [h36]
  rw [List.getD_eq_getElem _ _ hlt]
  exact List.getElem_mem _

theorem generate_unique_ext_shape (s : Store) (ct : Nat) (length : Nat) :
    ∀ (fuel : Nat) (rand : Nat → Fin 36) (e : String),
      generate_unique_ext s ct rand length fuel = some e →
      ∃ rnd : Nat → Fin 36, e = generate_ext rnd length := by
  intro fuel
  induction fuel with
  | zero => intro rand e h; simp [generate_unique_ext] at h
  | succ n ih =>
    intro rand e h
    simp only [generate_unique_ext] at h
    by_cases hb : ext_id_taken s ct (generate_ext rand length) = false
    · rw [if_pos hb] at h
      exact ⟨rand, (Option.some.injEq _ _ ▸ h.symm)⟩
    · rw [if_neg hb] at h
      exact ih _ e h

theorem generate_unique_ext_untaken (s : Store) (ct : Nat) (length : Nat) :
    ∀ (fuel : Nat) (rand : Nat → Fin 36) (e : String),
      generate_unique_ext s ct rand length fuel = some e →
      ext_id_taken s ct e = false := by
  intro fuel
  induction fuel with
  | zero => intro rand e h; simp [generate_unique_ext] at h
  | succ n ih =>
    intro rand e h
    simp only [generate_unique_ext] at h
    by_cases hb : ext_id_taken s ct (generate_ext rand length) = false
    · rw [if_pos hb] at h
      cases h
      exact hb
    · rw [if_neg hb] at h
      exact ih _ e h

/-! Helper lemmas about the two managers' querysets. -/

theorem mem_get_queryset (s : Store) (ct : Nat) (r : Record) :
    r ∈ get_queryset s ct ↔
      r ∈ s.records ∧ r.ctype = ct ∧ r.deleted_at = none := by
  simp only [get_queryset, mem_sortByLe, List.mem_filter, beq_iff_eq,
    and_assoc]

theorem mem_all_objects (s : Store) (ct : Nat) (r : Record) :
    r ∈ all_objects s ct ↔ r ∈ s.records ∧ r.ctype = ct := by
  simp [all_objects, mem_sortByLe, List.mem_filter]

theorem length_get_queryset (s : Store) (ct : Nat) :
    (get_queryset s ct).length =
      s.records.countP fun r => (r.deleted_at == none) && (r.ctype == ct) := by
  rw [get_queryset, length_sortByLe, ← List.countP_eq_length_filter,
    List.countP_filter]

theorem length_all_objects (s : Store) (ct : Nat) :
    (all_objects s ct).length = s.records.countP fun r => r.ctype == ct := by
  rw [all_objects, length_sortByLe, ← List.countP_eq_length_filter]

/-- Updating by a primary key that no member carries leaves a row list
unchanged. -/
theorem map_update_id (k : Nat) (rNew : Record) (l : List Record)
    (h : ∀ x ∈ l, x.pk ≠ k) :
    (l.map fun x => if x.pk == k then rNew else x) = l := by
  induction l with
  | nil => rfl
  | cons a as ih =>
    have ha : (a.pk == k) = false := by
      simp [h a (List.mem_cons_self a as)]
    simp only [List.map_cons, ha, Bool.false_eq_true, if_false]
    rw [ih fun x hx => h x (List.mem_cons_of_mem a hx)]

/-- Replacing the unique row of key `r.pk` by `rNew` trades `r`'s
contribution to a `countP` for `rNew`'s. -/
theorem countP_map_update (p : Record → Bool) (rNew : Record) :
    ∀ (l : List Record) (r : Record),
      l.Pairwise (fun a b => a.pk ≠ b.pk) → r ∈ l →
      (l.map fun x => if x.pk == r.pk then rNew else x).countP p
          + (if p r = true then 1 else 0)
        = l.countP p + (if p rNew = true then 1 else 0) := by
  intro l
  induction l with
  | nil => intro r _ hmem; cases hmem
  | cons a as ih =>
    intro r hp hmem
    rcases List.pairwise_cons.mp hp with ⟨ha, has⟩
    rcases List.mem_cons.mp hmem with hra | hmem'
    · have hhead : (a.pk == r.pk) = true := by rw [hra]; simp
      have htail : (as.map fun x => if x.pk == r.pk then rNew else x) = as := by
        refine map_update_id r.pk rNew as fun x hx hc => ?_
        rw [hra] at hc
        exact (ha x hx) hc.symm
      simp only [List.map_cons, hhead, if_true, htail, List.countP_cons]
      rw [hra]
      omega
    · have hhead : (a.pk == r.pk) = false := by
        simp [ha r hmem']
      simp only [List.map_cons, hhead, Bool.false_eq_true, if_false,
        List.countP_cons]
      have := ih r has hmem'
      omega

/-! Concrete scenario data used by counterexamples and witnesses. -/

/-- A PRNG stream that always draws index 0, i.e. the letter 'a'. -/
def randA : Nat → Fin 36 := fun _ => ⟨0, by norm_num⟩

/-- A store with no records and no logs. -/
def emptyStore : Store := { records := [], logs := [], now := 0 }

/-- A saved Temple (content type 0) holding external id "aaaaaaaaaa". -/
def temple0 : Record :=
  { pk := 1, ctype := 0, uid := 11, ext_id := "aaaaaaaaaa", created_at := 0,
    updated_at := 0, deleted_at := none, created_user := some ⟨7⟩,
    updated_user := some ⟨7⟩, reprStr := "Sri Temple" }

/-- A store holding only `temple0`. -/
def store0 : Store := { records := [temple0], logs := [], now := 5 }

/-- An unsaved Product (content type 1) with `ext_id` still unset. -/
def product0 : Record :=
  { pk := 2, ctype := 1, uid := 22, ext_id := "", created_at := 0,
    updated_at := 0, deleted_at := none, created_user := none,
    updated_user := none, reprStr := "Incense Set" }

/-- The state of `product0` after `save` on `store0` under `randA`. -/
def product1 : Record :=
  { product0 with ext_id := "aaaaaaaaaa", created_at := 5, updated_at := 5 }

/-- The store after that save: two records of different concrete types
carrying the same external id. -/
def storeCross : Store := { records := [temple0, product1], logs := [], now := 5 }

/-- A saved Temple (content type 0) holding external id "bbbbbbbbbb". -/
def templeB : Record :=
  { pk := 3, ctype := 0, uid := 33, ext_id := "bbbbbbbbbb", created_at := 0,
    updated_at := 0, deleted_at := none, created_user := some ⟨7⟩,
    updated_user := some ⟨7⟩, reprStr := "Old Temple" }

/-- A store holding only `templeB`. -/
def storeB : Store := { records := [templeB], logs := [], now := 0 }

/-! C1.  The spec calls the acceptance test of `generate_unique_ext`
logically inverted (recurse when unique, accept on collision).  The code
does the opposite: `while not <exists>: return ext_id` returns the
candidate exactly when it is NOT already taken, and only a taken candidate
falls through to the recursive retry. -/

/-- C1 counterexample: on a store where the candidate "aaaaaaaaaa" is not
taken, the algorithm accepts it on the very first attempt (fuel 1 allows
no retry); on a store where every candidate collides, it never accepts.
Both facts contradict the claimed inversion (retry on unique, accept on
collision). -/
theorem generate_unique_ext_inverted_cx :
    ext_id_taken emptyStore 0 (generate_ext randA 10) = false ∧
    generate_unique_ext emptyStore 0 randA 10 1 = some "aaaaaaaaaa" ∧
    ext_id_taken store0 0 "aaaaaaaaaa" = true ∧
    generate_unique_ext store0 0 randA 10 5 = none := by
  exact ⟨by decide, by decide, by decide, by decide⟩

/-- C1 (amended): the acceptance test of `generate_unique_ext` is not
inverted: a candidate that is not already taken is accepted at once, and
any returned id was not taken at the time of the check. -/
theorem generate_unique_ext_accepts_on_uniqueness (s : Store) (ct : Nat)
    (rand : Nat → Fin 36) (length fuel : Nat) :
    (ext_id_taken s ct (generate_ext rand length) = false →
      generate_unique_ext s ct rand length (fuel + 1) =
        some (generate_ext rand length)) ∧
    ∀ e : String, generate_unique_ext s ct rand length fuel = some e →
      ext_id_taken s ct e = false := by
  constructor
  · intro h
    simp [generate_unique_ext, h]
  · intro e h
    exact generate_unique_ext_untaken s ct length fuel rand e h

/-- Witness for `generate_unique_ext_accepts_on_uniqueness` at concrete
inputs. -/
theorem generate_unique_ext_accepts_on_uniqueness_witness :
    (ext_id_taken emptyStore 1 (generate_ext randA 10) = false ∧
      generate_unique_ext emptyStore 1 randA 10 3 =
        some (generate_ext randA 10)) ∧
    ext_id_taken storeB 0 "aaaaaaaaaa" = false :=
  ⟨⟨by decide,
    (generate_unique_ext_accepts_on_uniqueness emptyStore 1 randA 10 2).1
      (by decide)⟩,
   (generate_unique_ext_accepts_on_uniqueness storeB 0 randA 10 1).2
      "aaaaaaaaaa" (by decide)⟩

/-! C2.  The spec says the candidate's uniqueness is checked globally
across all concrete record types.  The check in the code is
`instance.__class__.objects.filter(ext_id=...).exists()`: scoped to the
instance's own class, and through the soft-delete manager at that. -/

/-- C2 counterexample: saving a Product under a PRNG that draws the id
already held by a Temple succeeds, leaving two records (of different
concrete types) with equal, non-empty external ids in the store. -/
theorem ext_id_cross_type_collision_cx :
    save randA 1 store0 product0 = Except.ok (storeCross, product1) ∧
    temple0 ∈ storeCross.records ∧ product1 ∈ storeCross.records ∧
    temple0.pk ≠ product1.pk ∧
    temple0.ext_id ≠ "" ∧ product1.ext_id ≠ "" ∧
    temple0.ext_id = product1.ext_id := by
  exact ⟨rfl, by decide, by decide, by decide, by decide, by decide,
    by decide⟩

/-- C2 (amended): the generation algorithm checks the candidate's
uniqueness only among the non-soft-deleted records of the record's own
concrete type, not globally: any id the algorithm returns differs from
the `ext_id` of every live record of that class, but the check does not
span concrete types, so two records of different concrete types may hold
equal non-null external ids (see the counterexample).  A collision with
a soft-deleted same-type row is missed by this check as well, but the
per-table `unique=True` constraint on `ext_id` would reject such a save
at the store, so no same-type duplicate state is reachable. -/
theorem generate_unique_ext_scoped_uniqueness (s : Store) (ct : Nat)
    (rand : Nat → Fin 36) (length fuel : Nat) (e : String)
    (h : generate_unique_ext s ct rand length fuel = some e) :
    ∀ r ∈ s.records, r.ctype = ct → r.deleted_at = none → r.ext_id ≠ e := by
  intro r hr hct hdel hext
  have huntaken := generate_unique_ext_untaken s ct length fuel rand e h
  have htaken : ext_id_taken s ct e = true := by
    simp only [ext_id_taken, List.any_eq_true]
    exact ⟨r, (mem_get_queryset s ct r).mpr ⟨hr, hct, hdel⟩, by simp [hext]⟩
  rw [huntaken] at htaken
  exact Bool.false_ne_true htaken

/-- Witness for `generate_unique_ext_scoped_uniqueness` at concrete
inputs. -/
theorem generate_unique_ext_scoped_uniqueness_witness :
    templeB.ext_id ≠ "aaaaaaaaaa" :=
  generate_unique_ext_scoped_uniqueness storeB 0 randA 10 1 "aaaaaaaaaa"
    (by decide) templeB (by decide) rfl rfl

/-! C3.  Deleting without an acting user raises before any field of the
record is touched. -/

/-- C3: for every store and record, `delete` with no acting user fails
with the `ValueError` (spec: `InvalidOperation`), and the error carries
the store and the record exactly as they were: `deleted_at` (and every
other field) is unchanged, with no partial mutation. -/
theorem delete_without_user_raises (rand : Nat → Fin 36) (fuel : Nat)
    (s : Store) (r : Record) :
    delete rand fuel s r none = Except.error (Err.invalidOperation, s, r) :=
  rfl

/-! C6.  `is_deleted` is a pure predicate on `deleted_at`. -/

/-- C6: `is_deleted` returns true exactly when `deleted_at` is non-null;
being a plain function of the record, it has no side effects. -/
theorem is_deleted_iff (r : Record) :
    is_deleted r = true ↔ r.deleted_at ≠ none := by
  simp [is_deleted, Option.isSome_iff_ne_none]

/-! Helper lemmas about `persist`. -/

theorem persist_fst_logs (s : Store) (r : Record) :
    (persist s r).1.logs = s.logs := by
  unfold persist; split <;> rfl

theorem persist_fst_now (s : Store) (r : Record) :
    (persist s r).1.now = s.now := by
  unfold persist; split <;> rfl

theorem persist_snd_pk (s : Store) (r : Record) :
    (persist s r).2.pk = r.pk := by
  unfold persist; split <;> rfl

theorem persist_snd_ctype (s : Store) (r : Record) :
    (persist s r).2.ctype = r.ctype := by
  unfold persist; split <;> rfl

theorem persist_snd_ext_id (s : Store) (r : Record) :
    (persist s r).2.ext_id = r.ext_id := by
  unfold persist; split <;> rfl

theorem persist_snd_deleted_at (s : Store) (r : Record) :
    (persist s r).2.deleted_at = r.deleted_at := by
  unfold persist; split <;> rfl

theorem persist_snd_updated_user (s : Store) (r : Record) :
    (persist s r).2.updated_user = r.updated_user := by
  unfold persist; split <;> rfl

theorem persist_snd_reprStr (s : Store) (r : Record) :
    (persist s r).2.reprStr = r.reprStr := by
  unfold persist; split <;> rfl

theorem persist_mem (s : Store) (r : Record) :
    (persist s r).2 ∈ (persist s r).1.records := by
  by_cases hc : s.records.any fun x => x.pk == r.pk
  · unfold persist
    rw [if_pos hc]
    simp only [List.mem_map]
    rcases List.any_eq_true.mp hc with ⟨x, hx, hxpk⟩
    exact ⟨x, hx, by rw [if_pos hxpk]⟩
  · unfold persist
    rw [if_neg hc]
    simp

theorem persist_preserves_pks (s : Store) (r : Record) :
    ∀ x ∈ s.records, ∃ y ∈ (persist s r).1.records, y.pk = x.pk := by
  intro x hx
  by_cases hc : s.records.any fun z => z.pk == r.pk
  · unfold persist
    rw [if_pos hc]
    by_cases hxp : (x.pk == r.pk) = true
    · refine ⟨{ r with updated_at := s.now }, ?_, ?_⟩
      · simp only [List.mem_map]
        exact ⟨x, hx, by rw [if_pos hxp]⟩
      · have := beq_iff_eq.mp hxp
        simp [this]
    · refine ⟨x, ?_, rfl⟩
      simp only [List.mem_map]
      refine ⟨x, hx, ?_⟩
      rw [if_neg hxp]
  · unfold persist
    rw [if_neg hc]
    exact ⟨x, by simp [hx], rfl⟩

/-- When the record's key is already present, `persist` rewrites exactly
that row. -/
theorem persist_records_of_mem (s : Store) (r : Record)
    (hc : (s.records.any fun x => x.pk == r.pk) = true) :
    (persist s r).1.records =
      s.records.map fun x =>
        if x.pk == r.pk then { r with updated_at := s.now } else x := by
  unfold persist
  rw [if_pos hc]

/-! Computation laws for `delete` and `restore` on the success and
failure paths, shared by several theorems below. -/

/-- On a provided user and a set `ext_id`, `delete` mutates, logs, then
saves: the result is the persist of the soft-deleted record into the
store extended with the deletion log entry. -/
theorem delete_some_eq (rand : Nat → Fin 36) (fuel : Nat) (s : Store)
    (r : Record) (u : User) (hext : r.ext_id ≠ "") :
    delete rand fuel s r (some u) =
      Except.ok (persist
        { s with logs := s.logs ++
          [{ user_id := u.pk, content_type_id := r.ctype, object_id := r.pk,
             object_repr := r.reprStr, action_flag := ActionFlag.deletion,
             message := "Object soft deleted", is_admin := false,
             code := none, action_time := s.now }] }
        { r with deleted_at := some s.now, updated_user := some u }) := by
  show save rand fuel _ _ = _
  rw [save, if_neg hext]
  rfl

/-- On a record whose `updated_user` is present and whose `ext_id` is
set, `restore` persists the cleared record and then appends the
"Object restored" entry. -/
theorem restore_some_eq (rand : Nat → Fin 36) (fuel : Nat) (s : Store)
    (r : Record) (u : User) (hu : r.updated_user = some u)
    (hext : r.ext_id ≠ "") :
    restore rand fuel s r =
      Except.ok
        ({ (persist s { r with deleted_at := none }).1 with
            logs := (persist s { r with deleted_at := none }).1.logs ++
              [{ user_id := u.pk,
                 content_type_id :=
                   (persist s { r with deleted_at := none }).2.ctype,
                 object_id := (persist s { r with deleted_at := none }).2.pk,
                 object_repr :=
                   (persist s { r with deleted_at := none }).2.reprStr,
                 action_flag := ActionFlag.change,
                 message := "Object restored", is_admin := false,
                 code := none,
                 action_time :=
                   (persist s { r with deleted_at := none }).1.now }] },
          (persist s { r with deleted_at := none }).2) := by
  have huu : (persist s { r with deleted_at := none }).2.updated_user =
      some u := by
    rw [persist_snd_updated_user]
    exact hu
  rcases hps : persist s { r with deleted_at := none } with ⟨s1, r2⟩
  rw [hps] at huu
  rw [restore, save, if_neg hext, hps]
  simp only []
  rw [huu, log_action]
  rfl

/-- On a record whose `updated_user` is absent (and whose `ext_id` is
set), `restore` raises from inside the audit append, after the cleared
record was already persisted. -/
theorem restore_none_eq (rand : Nat → Fin 36) (fuel : Nat) (s : Store)
    (r : Record) (hu : r.updated_user = none) (hext : r.ext_id ≠ "") :
    restore rand fuel s r =
      Except.error (Err.noneDereference,
        (persist s { r with deleted_at := none }).1,
        (persist s { r with deleted_at := none }).2) := by
  have huu : (persist s { r with deleted_at := none }).2.updated_user =
      none := by
    rw [persist_snd_updated_user]
    exact hu
  rcases hps : persist s { r with deleted_at := none } with ⟨s1, r2⟩
  rw [hps] at huu
  rw [restore, save, if_neg hext, hps]
  simp only []
  rw [huu, log_action]

/-! C4.  Soft delete with a provided acting user. -/

/-- C4: with an acting user provided (and the record's external id set, as
for every persisted record), `delete` succeeds, and the result has
`deleted_at` set to the current time, `updated_user` set to that user,
exactly one audit entry of kind deletion with message "Object soft
deleted" appended, and the record persisted via `save`; no row of the
store is physically removed (every prior key is still present). -/
theorem delete_soft_deletes_and_logs (rand : Nat → Fin 36) (fuel : Nat)
    (s : Store) (r : Record) (u : User) (hext : r.ext_id ≠ "") :
    (delete rand fuel s r (some u)).isOk = true ∧
    ∀ s' r', delete rand fuel s r (some u) = Except.ok (s', r') →
      r'.deleted_at = some s.now ∧
      r'.updated_user = some u ∧
      s'.logs = s.logs ++
        [{ user_id := u.pk, content_type_id := r.ctype, object_id := r.pk,
           object_repr := r.reprStr, action_flag := ActionFlag.deletion,
           message := "Object soft deleted", is_admin := false, code := none,
           action_time := s.now }] ∧
      r' ∈ s'.records ∧
      ∀ x ∈ s.records, ∃ y ∈ s'.records, y.pk = x.pk := by
  rw [delete_some_eq rand fuel s r u hext]
  refine ⟨rfl, ?_⟩
  intro s' r' h
  injection h with hpair
  rw [Prod.ext_iff] at hpair
  obtain ⟨hs, hr⟩ := hpair
  subst hs
  subst hr
  refine ⟨?_, ?_, ?_, persist_mem _ _,
    persist_preserves_pks
      { s with logs := s.logs ++
        [{ user_id := u.pk, content_type_id := r.ctype, object_id := r.pk,
           object_repr := r.reprStr, action_flag := ActionFlag.deletion,
           message := "Object soft deleted", is_admin := false, code := none,
           action_time := s.now }] }
      { r with deleted_at := some s.now, updated_user := some u }⟩
  · rw [persist_snd_deleted_at]
  · rw [persist_snd_updated_user]
  · rw [persist_fst_logs]

/-- The state of `temple0` after `delete` on `store0` by user 7. -/
def templeDel : Record :=
  { temple0 with deleted_at := some 5, updated_at := 5 }

/-- The audit entry written by that delete. -/
def delEntry : LogEntry :=
  { user_id := 7, content_type_id := 0, object_id := 1,
    object_repr := "Sri Temple", action_flag := ActionFlag.deletion,
    message := "Object soft deleted", is_admin := false, code := none,
    action_time := 5 }

/-- The store after that delete. -/
def storeDel : Store :=
  { records := [templeDel], logs := [delEntry], now := 5 }

/-- Witness for `delete_soft_deletes_and_logs` at concrete inputs. -/
theorem delete_soft_deletes_and_logs_witness :
    (delete randA 1 store0 temple0 (some ⟨7⟩)).isOk = true ∧
    templeDel.deleted_at = some 5 ∧
    storeDel.logs = [delEntry] :=
  ⟨(delete_soft_deletes_and_logs randA 1 store0 temple0 ⟨7⟩ (by decide)).1,
   ((delete_soft_deletes_and_logs randA 1 store0 temple0 ⟨7⟩
      (by decide)).2 storeDel templeDel rfl).1,
   ((delete_soft_deletes_and_logs randA 1 store0 temple0 ⟨7⟩
      (by decide)).2 storeDel templeDel rfl).2.2.1⟩

/-! C7.  External-id assignment inside `save`. -/

/-- C7: `save` leaves a set `ext_id` unchanged, and when `ext_id` is
unset, whatever id a successful save assigns has exactly length 10 and
consists only of lowercase letters and digits. -/
theorem save_ext_id_spec (rand : Nat → Fin 36) (fuel : Nat) (s : Store)
    (r : Record) :
    (r.ext_id ≠ "" → (save rand fuel s r).isOk = true ∧
      ∀ s' r', save rand fuel s r = Except.ok (s', r') →
        r'.ext_id = r.ext_id) ∧
    (r.ext_id = "" → ∀ s' r', save rand fuel s r = Except.ok (s', r') →
      r'.ext_id.length = 10 ∧ ∀ c ∈ r'.ext_id.toList, c ∈ alphaChars) := by
  constructor
  · intro h
    rw [save, if_neg h]
    refine ⟨rfl, ?_⟩
    intro s' r' hok
    injection hok with hpair
    have hr : r' = (persist s r).2 := by rw [hpair]
    subst hr
    rw [persist_snd_ext_id]
  · intro h s' r' hok
    rw [save, if_pos h] at hok
    cases hgen : generate_unique_ext s r.ctype rand 10 fuel with
    | none => rw [hgen] at hok; cases hok
    | some e =>
      rw [hgen] at hok
      injection hok with hpair
      have hr : r' = (persist s { r with ext_id := e }).2 := by rw [hpair]
      subst hr
      rw [persist_snd_ext_id]
      obtain ⟨rnd, rfl⟩ := generate_unique_ext_shape s r.ctype 10 fuel rand e hgen
      exact ⟨length_generate_ext rnd 10, mem_alphaChars_generate_ext rnd 10⟩

/-- Witness for `save_ext_id_spec` at concrete inputs: the id assigned to
the unset `product0` has length 10, and the set id of `temple0` survives
its save. -/
theorem save_ext_id_spec_witness :
    product1.ext_id.length = 10 ∧
    (save randA 1 store0 temple0).isOk = true :=
  ⟨((save_ext_id_spec randA 1 store0 product0).2 rfl storeCross product1
      rfl).1,
   ((save_ext_id_spec randA 1 store0 temple0).1 (by decide)).1⟩

/-! C10.  `restore` on a record whose `updated_user` is absent. -/

/-- C10: on any record whose `updated_user` reference is absent (with
`ext_id` set, as for every persisted record), `restore` fails with the
none-dereference raised while emitting its audit entry (`user.pk` inside
`log_action`); by then the cleared record has already been persisted, so
restore is not total and even mutates before failing. -/
theorem restore_not_total_without_user (rand : Nat → Fin 36) (fuel : Nat)
    (s : Store) (r : Record) (hu : r.updated_user = none)
    (hext : r.ext_id ≠ "") :
    restore rand fuel s r =
      Except.error (Err.noneDereference,
        (persist s { r with deleted_at := none }).1,
        (persist s { r with deleted_at := none }).2) ∧
    (persist s { r with deleted_at := none }).2.deleted_at = none ∧
    (persist s { r with deleted_at := none }).2 ∈
      (persist s { r with deleted_at := none }).1.records := by
  refine ⟨restore_none_eq rand fuel s r hu hext, ?_, persist_mem _ _⟩
  rw [persist_snd_deleted_at]

/-- A soft-deleted Temple whose `updated_user` reference is absent. -/
def templeNU : Record :=
  { temple0 with updated_user := none, deleted_at := some 3 }

/-- A store holding only `templeNU`. -/
def storeNU : Store := { records := [templeNU], logs := [], now := 5 }

/-- The state of `templeNU` at the raise point of its failed restore. -/
def templeNU1 : Record :=
  { templeNU with deleted_at := none, updated_at := 5 }

/-- The store at that raise point: the cleared record is persisted, no
log entry was written. -/
def storeNU1 : Store := { records := [templeNU1], logs := [], now := 5 }

/-- Witness for `restore_not_total_without_user` at concrete inputs. -/
theorem restore_not_total_without_user_witness :
    restore randA 1 storeNU templeNU =
      Except.error (Err.noneDereference, storeNU1, templeNU1) :=
  (restore_not_total_without_user randA 1 storeNU templeNU rfl
    (by decide)).1

/-! C5.  `restore` semantics.  The spec's "for every record" form fails
exactly on the records of C10; on every other record it behaves as
described. -/

/-- C5 counterexample: on a record with no `updated_user`, `restore` does
not complete its audit append: it raises, leaving no "Object restored"
entry (the raise-point store has no log entries at all). -/
theorem restore_without_updated_user_cx :
    templeNU.updated_user = none ∧
    restore randA 1 storeNU templeNU =
      Except.error (Err.noneDereference, storeNU1, templeNU1) ∧
    storeNU1.logs = [] := by
  exact ⟨rfl, rfl, rfl⟩

/-- C5 (amended): on every record whose `updated_user` reference is
present (and whose `ext_id` is set), `restore` clears `deleted_at`,
persists the record, then appends a modification ("CHANGE") entry with
message "Object restored" attributed to the stored `updated_user`; it
does not change `updated_user` and takes no acting-user argument. -/
theorem restore_clears_and_logs (rand : Nat → Fin 36) (fuel : Nat)
    (s : Store) (r : Record) (u : User) (hu : r.updated_user = some u)
    (hext : r.ext_id ≠ "") :
    (restore rand fuel s r).isOk = true ∧
    ∀ s2 r2, restore rand fuel s r = Except.ok (s2, r2) →
      r2.deleted_at = none ∧
      r2.updated_user = r.updated_user ∧
      r2 ∈ s2.records ∧
      s2.logs = s.logs ++
        [{ user_id := u.pk, content_type_id := r.ctype, object_id := r.pk,
           object_repr := r.reprStr, action_flag := ActionFlag.change,
           message := "Object restored", is_admin := false, code := none,
           action_time := s.now }] := by
  rw [restore_some_eq rand fuel s r u hu hext]
  refine ⟨rfl, ?_⟩
  intro s2 r2 h
  injection h with hpair
  rw [Prod.ext_iff] at hpair
  obtain ⟨hs, hr⟩ := hpair
  subst hs
  subst hr
  refine ⟨?_, ?_, ?_, ?_⟩
  · rw [persist_snd_deleted_at]
  · rw [persist_snd_updated_user]
  · exact persist_mem _ _
  · simp only [persist_fst_logs, persist_fst_now, persist_snd_ctype,
      persist_snd_pk, persist_snd_reprStr]

/-- The state of `temple0` after its restore on `store0`. -/
def templeRes : Record := { temple0 with updated_at := 5 }

/-- The audit entry written by that restore. -/
def resEntry : LogEntry :=
  { user_id := 7, content_type_id := 0, object_id := 1,
    object_repr := "Sri Temple", action_flag := ActionFlag.change,
    message := "Object restored", is_admin := false, code := none,
    action_time := 5 }

/-- The store after that restore. -/
def storeRes : Store :=
  { records := [templeRes], logs := [resEntry], now := 5 }

/-- Witness for `restore_clears_and_logs` at concrete inputs. -/
theorem restore_clears_and_logs_witness :
    (restore randA 1 store0 temple0).isOk = true ∧
    templeRes.deleted_at = none ∧
    storeRes.logs = [resEntry] :=
  ⟨(restore_clears_and_logs randA 1 store0 temple0 ⟨7⟩ rfl (by decide)).1,
   ((restore_clears_and_logs randA 1 store0 temple0 ⟨7⟩ rfl
      (by decide)).2 storeRes templeRes rfl).1,
   ((restore_clears_and_logs randA 1 store0 temple0 ⟨7⟩ rfl
      (by decide)).2 storeRes templeRes rfl).2.2.2⟩

/-! C9.  The per-record audit-log query. -/

/-- C9: `all_logs` returns exactly the entries whose content type and
object identity match the record, ordered by action time descending;
being a plain function of the store and record, it performs no
mutation. -/
theorem all_logs_filtered_and_sorted (s : Store) (r : Record) :
    (∀ e : LogEntry, e ∈ all_logs s r ↔
      e ∈ s.logs ∧ e.content_type_id = r.ctype ∧ e.object_id = r.pk) ∧
    (all_logs s r).Pairwise fun a b => b.action_time ≤ a.action_time := by
  constructor
  · intro e
    simp [all_logs, mem_sortByLe, List.mem_filter, and_assoc]
  · have hp := pairwise_sortByLe
      (fun a b : LogEntry => decide (b.action_time ≤ a.action_time))
      (fun a b => by
        rcases Nat.le_total b.action_time a.action_time with h | h
        · exact Or.inl (decide_eq_true h)
        · exact Or.inr (decide_eq_true h))
      (fun a b c hab hbc => decide_eq_true
        (Nat.le_trans (of_decide_eq_true hbc) (of_decide_eq_true hab)))
      (s.logs.filter fun e =>
        e.content_type_id == r.ctype && e.object_id == r.pk)
    exact hp.imp fun h => of_decide_eq_true h

/-! C8.  Default ("objects") versus unrestricted ("all_objects")
enumeration, and how one soft delete changes their sizes. -/

/-- C8: the default enumeration of a concrete type holds exactly the
records of that type with null `deleted_at`, in ascending order of
internal identity, while `all_objects` holds every record of the type
regardless of deletion state; consequently a successful soft delete of a
live record shrinks the default listing by exactly one and leaves the
unrestricted listing's size unchanged. -/
theorem enumeration_policy (s : Store) (ct : Nat) :
    (∀ r : Record, r ∈ get_queryset s ct ↔
        r ∈ s.records ∧ r.ctype = ct ∧ r.deleted_at = none) ∧
    (get_queryset s ct).Pairwise (fun a b => a.pk ≤ b.pk) ∧
    (∀ r : Record, r ∈ all_objects s ct ↔ r ∈ s.records ∧ r.ctype = ct) ∧
    ∀ (rand : Nat → Fin 36) (fuel : Nat) (r : Record) (u : User)
      (s' : Store) (r' : Record),
      s.records.Pairwise (fun a b => a.pk ≠ b.pk) →
      r ∈ s.records → r.ctype = ct → r.deleted_at = none → r.ext_id ≠ "" →
      delete rand fuel s r (some u) = Except.ok (s', r') →
      (get_queryset s' ct).length + 1 = (get_queryset s ct).length ∧
      (all_objects s' ct).length = (all_objects s ct).length := by
  refine ⟨mem_get_queryset s ct, ?_, mem_all_objects s ct, ?_⟩
  · have hp := pairwise_sortByLe (fun a b : Record => decide (a.pk ≤ b.pk))
      (fun a b => by
        rcases Nat.le_total a.pk b.pk with h | h
        · exact Or.inl (decide_eq_true h)
        · exact Or.inr (decide_eq_true h))
      (fun a b c hab hbc => decide_eq_true
        (Nat.le_trans (of_decide_eq_true hab) (of_decide_eq_true hbc)))
      ((s.records.filter fun x => x.ctype == ct).filter
        fun x => x.deleted_at == none)
    exact hp.imp fun h => of_decide_eq_true h
  · intro rand fuel r u s' r' hdist hmem hct hdel hext hdelete
    rw [delete_some_eq rand fuel s r u hext] at hdelete
    injection hdelete with hpair
    rw [Prod.ext_iff] at hpair
    obtain ⟨hs, hr⟩ := hpair
    subst hs
    have hc : (s.records.any fun x => x.pk == r.pk) = true :=
      List.any_eq_true.mpr ⟨r, hmem, by simp⟩
    have hform :
        (persist
          { s with logs := s.logs ++
            [{ user_id := u.pk, content_type_id := r.ctype,
               object_id := r.pk, object_repr := r.reprStr,
               action_flag := ActionFlag.deletion,
               message := "Object soft deleted", is_admin := false,
               code := none, action_time := s.now }] }
          { r with deleted_at := some s.now, updated_user := some u }).1.records =
        s.records.map (fun x => if x.pk == r.pk then { r with deleted_at := some s.now, updated_user := some u, updated_at := s.now } else x) :=
      persist_records_of_mem _ _ hc
    constructor
    · rw [length_get_queryset, length_get_queryset, hform]
      have hcount := countP_map_update
        (fun x => (x.deleted_at == none) && (x.ctype == ct))
        { r with deleted_at := some s.now, updated_user := some u, updated_at := s.now }
        s.records r hdist hmem
      have hpr : ((r.deleted_at == none) && (r.ctype == ct)) = true := by
        rw [hdel, hct]; simp
      have hpnew :
          ((({ r with deleted_at := some s.now, updated_user := some u, updated_at := s.now } : Record).deleted_at == none) &&
            (({ r with deleted_at := some s.now, updated_user := some u, updated_at := s.now } : Record).ctype == ct)) = false := by
        simp
      simp only [hpr, hpnew, if_true, Bool.false_eq_true, if_false] at hcount
      omega
    · rw [length_all_objects, length_all_objects, hform]
      have hcount := countP_map_update (fun x => x.ctype == ct)
        { r with deleted_at := some s.now, updated_user := some u, updated_at := s.now }
        s.records r hdist hmem
      have hpr : (r.ctype == ct) = true := by rw [hct]; simp
      have hpnew :
          (({ r with deleted_at := some s.now, updated_user := some u, updated_at := s.now } : Record).ctype == ct) = true := by
        simpa using hpr
      simp only [hpr, hpnew, if_true] at hcount
      omega

/-- A saved, live Product used in the enumeration scenario. -/
def prodA : Record :=
  { pk := 1, ctype := 1, uid := 101, ext_id := "aaaaaaaaaa", created_at := 0,
    updated_at := 0, deleted_at := none, created_user := some ⟨7⟩,
    updated_user := some ⟨7⟩, reprStr := "Incense Set" }

/-- A second saved, live Product. -/
def prodB : Record :=
  { pk := 2, ctype := 1, uid := 102, ext_id := "bbbbbbbbbb", created_at := 0,
    updated_at := 0, deleted_at := none, created_user := some ⟨7⟩,
    updated_user := some ⟨7⟩, reprStr := "Camphor Pack" }

/-- A store holding the two live Products. -/
def storeTwo : Store := { records := [prodA, prodB], logs := [], now := 9 }

/-- The state of `prodA` after its soft delete. -/
def prodADel : Record :=
  { prodA with deleted_at := some 9, updated_at := 9 }

/-- The store after soft-deleting `prodA`. -/
def storeTwoDel : Store :=
  { records := [prodADel, prodB],
    logs := [{ user_id := 7, content_type_id := 1, object_id := 1,
               object_repr := "Incense Set",
               action_flag := ActionFlag.deletion,
               message := "Object soft deleted", is_admin := false,
               code := none, action_time := 9 }],
    now := 9 }

/-- Witness for `enumeration_policy` at concrete inputs: deleting one of
the two live Products leaves a default listing of one and an unrestricted
listing of two. -/
theorem enumeration_policy_witness :
    (get_queryset storeTwo 1).length = 2 ∧
    (all_objects storeTwo 1).length = 2 ∧
    (get_queryset storeTwoDel 1).length + 1 =
      (get_queryset storeTwo 1).length ∧
    (all_objects storeTwoDel 1).length = (all_objects storeTwo 1).length :=
  ⟨by decide, by decide,
   ((enumeration_policy storeTwo 1).2.2.2 randA 1 prodA ⟨7⟩ storeTwoDel
      prodADel (by decide) (by decide) rfl rfl (by decide) rfl).1,
   ((enumeration_policy storeTwo 1).2.2.2 randA 1 prodA ⟨7⟩ storeTwoDel
      prodADel (by decide) (by decide) rfl rfl (by decide) rfl).2⟩
